import Mathlib

/-!
Verification of the relay/synchronization layer of the AIB-TMRL repository
(`src/tmrl/networking.py`), shallowly embedded in Lean 4.

Part 1: the `Buffer` class (networking.py lines 211-263) and the trainer-side
`retrieve_buffer` operation (lines 518-526).

Samples are opaque to the core (the code only appends, concatenates, slices and
counts them), so the buffer is parametric in the sample type `α`.  The four
statistics are Python floats / ints that the core only ever copies, never
computes with, so the two returns are modelled as rationals and the two step
counters as naturals.
-/

namespace TMRL

universe u

/-- Model of `Buffer` (networking.py lines 211-229): a list of samples, four
episode statistics, and the capacity `maxlen`. -/
structure Buffer (α : Type u) where
  memory : List α
  stat_train_return : ℚ
  stat_test_return : ℚ
  stat_train_steps : ℕ
  stat_test_steps : ℕ
  maxlen : ℕ
  deriving Repr, DecidableEq

/-- `Buffer.__init__` (lines 219-229): empty memory, zero statistics. -/
def Buffer.init (maxlen : ℕ) : Buffer α :=
  { memory := []
    stat_train_return := 0
    stat_test_return := 0
    stat_train_steps := 0
    stat_test_steps := 0
    maxlen := maxlen }

/-- The list operation performed by `Buffer.clip_to_maxlen` (lines 231-235):
`self.memory = self.memory[(lenmem - self.maxlen):]` when `lenmem > maxlen`. -/
def clipList (maxlen : ℕ) (l : List α) : List α :=
  if l.length > maxlen then l.drop (l.length - maxlen) else l

/-- `Buffer.clip_to_maxlen` (lines 231-235). -/
def Buffer.clip_to_maxlen (b : Buffer α) : Buffer α :=
  { b with memory := clipList b.maxlen b.memory }

/-- `Buffer.append_sample` (lines 237-245): append then clip. -/
def Buffer.append_sample (b : Buffer α) (sample : α) : Buffer α :=
  Buffer.clip_to_maxlen { b with memory := b.memory ++ [sample] }

/-- `Buffer.clear` (lines 247-251): empties the memory, keeps the statistics. -/
def Buffer.clear (b : Buffer α) : Buffer α :=
  { b with memory := [] }

/-- `Buffer.__len__` (lines 253-254). -/
def Buffer.size (b : Buffer α) : ℕ :=
  b.memory.length

/-- `Buffer.__iadd__` (lines 256-263): concatenate the other buffer's memory,
clip to this buffer's capacity, then overwrite the four statistics with the
other buffer's values. -/
def Buffer.iadd (b other : Buffer α) : Buffer α :=
  let c := Buffer.clip_to_maxlen { b with memory := b.memory ++ other.memory }
  { c with
    stat_train_return := other.stat_train_return
    stat_test_return := other.stat_test_return
    stat_train_steps := other.stat_train_steps
    stat_test_steps := other.stat_test_steps }

/-- `TrainerInterface.retrieve_buffer` (lines 518-526): under the buffer lock,
deep-copy the buffer, clear the internal one, return the copy.  The first
component is the returned copy, the second the internal buffer afterwards. -/
def retrieve_buffer (b : Buffer α) : Buffer α × Buffer α :=
  (b, b.clear)

lemma clipList_eq_drop (m : ℕ) (l : List α) :
    clipList m l = l.drop (l.length - m) := by
  unfold clipList
  split
  · rfl
  · rename_i h
    have : l.length - m = 0 := by omega
    rw [this, List.drop_zero]

lemma length_clipList (m : ℕ) (l : List α) :
    (clipList m l).length = min l.length m := by
  rw [clipList_eq_drop, List.length_drop]
  omega

/-- Core lemma for C1: folding `append_sample` over `xs` keeps exactly the
most recent `maxlen` entries of `memory ++ xs`. -/
lemma foldl_append_sample_memory (m : ℕ) :
    ∀ (xs : List α) (b : Buffer α), b.memory.length ≤ m → b.maxlen = m →
      (xs.foldl Buffer.append_sample b).memory =
        (b.memory ++ xs).drop (b.memory.length + xs.length - m) := by
  intro xs
  induction xs with
  | nil =>
    intro b hlen hm
    simp only [List.foldl_nil, List.append_nil, List.length_nil, Nat.add_zero]
    have h0 : b.memory.length - m = 0 := by omega
    rw [h0, List.drop_zero]
  | cons x xs ih =>
    intro b hlen hm
    have hmem : (Buffer.append_sample b x).memory =
        (b.memory ++ [x]).drop (b.memory.length + 1 - m) := by
      simp [Buffer.append_sample, Buffer.clip_to_maxlen, hm, clipList_eq_drop]
    have hmax : (Buffer.append_sample b x).maxlen = m := by
      simp [Buffer.append_sample, Buffer.clip_to_maxlen, hm]
    have hlen' : (Buffer.append_sample b x).memory.length ≤ m := by
      rw [hmem, List.length_drop]
      simp only [List.length_append, List.length_cons, List.length_nil]
      omega
    rw [List.foldl_cons, ih _ hlen' hmax, hmem]
    rw [List.length_drop]
    have hle : b.memory.length + 1 - m ≤ (b.memory ++ [x]).length := by
      simp only [List.length_append, List.length_cons, List.length_nil]
      omega
    have hd : ((b.memory ++ [x]).drop (b.memory.length + 1 - m) ++ xs) =
        ((b.memory ++ [x]) ++ xs).drop (b.memory.length + 1 - m) :=
      (List.drop_append_of_le_length hle).symm
    rw [hd, List.drop_drop]
    have harith : b.memory.length + 1 - m +
        ((b.memory ++ [x]).length - (b.memory.length + 1 - m) + xs.length - m) =
        b.memory.length + (x :: xs).length - m := by
      simp only [List.length_append, List.length_cons, List.length_nil]
      omega
    rw [harith]
    simp

/-!
Part 2: the framed wire channel, `send_object` (networking.py lines 50-74),
`recv_object` (lines 77-114) and `poll_and_recv_or_close_socket` (lines
185-205), modelled at the byte level.  Bytes are naturals; a received stream is
a finite list of bytes, whose exhaustion models the zero-byte read of a closed
connection.  The serializer (`pickle`, standard library, not under src) is
opaque to the framing: `send_object` is modelled on the already-serialized
payload bytes, and `recv_object` takes the deserializer as a parameter.  The
header width `cfg.HEADER_SIZE` comes from a config module that is not under
src; modelled from the spec ("fixed-width ASCII header (configurable width)"),
it is a parameter `H` of every definition.
-/

/-- The bytes of the literal b'ACK'. -/
def asciiACK : List ℕ := [65, 67, 75]

/-- The bytes of the literal b'PING'. -/
def asciiPING : List ℕ := [80, 73, 78, 71]

/-- Little-endian decimal digits of `n`, with explicit fuel so that the
definition is structural (the fuel `n` itself always suffices). -/
def digitsAux : ℕ → ℕ → List ℕ
  | 0, _ => []
  | fuel + 1, n => if n = 0 then [] else n % 10 :: digitsAux fuel (n / 10)

/-- Little-endian decimal digits of `n`. -/
def decDigits (n : ℕ) : List ℕ := digitsAux n n

/-- The ASCII bytes of Python `str(n)`: big-endian decimal digits, `"0"` for
zero. -/
def renderDec (n : ℕ) : List ℕ :=
  if n = 0 then [48] else (decDigits n).reverse.map (fun d => d + 48)

/-- The length header `bytes(f"{n:<H}")` (line 67): decimal text left-aligned,
padded on the right with spaces (byte 32) to width `H`.  Python f-strings do
not truncate text longer than the width, which the truncated subtraction
reproduces. -/
def lengthHeader (H n : ℕ) : List ℕ :=
  renderDec n ++ List.replicate (H - (renderDec n).length) 32

/-- The control header `bytes(f"{'ACK':<H}")` (line 64). -/
def ackHeader (H : ℕ) : List ℕ := asciiACK ++ List.replicate (H - 3) 32

/-- The control header `bytes(f"{'PING':<H}")` (line 60). -/
def pingHeader (H : ℕ) : List ℕ := asciiPING ++ List.replicate (H - 4) 32

/-- ASCII decimal digit test. -/
def isDigitByte (b : ℕ) : Bool := 48 ≤ b && b ≤ 57

/-- Strip leading and trailing space bytes, as Python `int()` does with
whitespace around the literal. -/
def stripSpaces (l : List ℕ) : List ℕ :=
  ((l.dropWhile (fun b => b == 32)).reverse.dropWhile (fun b => b == 32)).reverse

/-- Python `int(msg[:HEADER_SIZE])` (line 100): strips surrounding whitespace
and requires a nonempty all-digit core; `none` models the `ValueError` raised
otherwise. -/
def parseDec (l : List ℕ) : Option ℕ :=
  let s := stripSpaces l
  if s ≠ [] ∧ s.all isDigitByte = true then
    some (s.foldl (fun a d => a * 10 + (d - 48)) 0)
  else none

/-- `send_object` (lines 50-74), non-control branch, at the byte level: the
wire bytes are the length header followed by the serialized payload bytes. -/
def send_object (H : ℕ) (msg : List ℕ) : List ℕ :=
  lengthHeader H msg.length ++ msg

/-- Outcome of the framing layer of `recv_object`:  `lost` models the `None`
return on a closed/broken connection, `ackSig` the `'ACK'` return, `body` a
fully received payload byte string, `exn` an uncaught exception escaping the
function. -/
inductive FrameResult
  | lost
  | ackSig
  | body (b : List ℕ)
  | exn
  deriving Repr, DecidableEq

/-- `recv_object` (lines 77-113) up to but excluding `pickle.loads`: read
exactly `H` header bytes (stream exhaustion models the zero-byte read of a
closed connection, returning `None`); if the first three header bytes are
b'ACK' (line 98), return the ACK signal without reading any body byte;
otherwise `int(header)` gives the body length (`exn` models the uncaught
`ValueError` on a non-numeric header — the code has no PING/PONG branch
despite its docstring); then read exactly that many body bytes.  The second
component is the unconsumed remainder of the stream.  The ACK written back to
the peer after a full body (line 113) travels on the opposite direction of the
socket and is not part of this value. -/
def recvFrame (H : ℕ) (stream : List ℕ) : FrameResult × List ℕ :=
  if stream.length < H then (.lost, [])
  else if (stream.take H).take 3 = asciiACK then (.ackSig, stream.drop H)
  else
    match parseDec (stream.take H) with
    | none => (.exn, stream.drop H)
    | some msglen =>
      if (stream.drop H).length < msglen then (.lost, [])
      else (.body ((stream.drop H).take msglen), (stream.drop H).drop msglen)

/-- Result of full `recv_object` including deserialization. -/
inductive RecvResult (α : Type u)
  | lost
  | ackSig
  | obj (a : α)
  | exn
  deriving Repr, DecidableEq

/-- `recv_object` (lines 77-114) including the final `pickle.loads`, with the
deserializer `dec` a parameter; `dec` failure is an uncaught exception (line
114 is outside every try block). -/
def recv_object (dec : List ℕ → Option α) (H : ℕ) (stream : List ℕ) :
    RecvResult α × List ℕ :=
  match recvFrame H stream with
  | (.lost, r) => (.lost, r)
  | (.ackSig, r) => (.ackSig, r)
  | (.exn, r) => (.exn, r)
  | (.body b, r) =>
    match dec b with
    | some a => (.obj a, r)
    | none => (.exn, r)

/-- `poll_and_recv_or_close_socket` (lines 185-205), given the outcome `ready`
of the zero-timeout read poll.  `none` models an exception propagating out of
the function (nothing catches exceptions from `recv_object`); `some (false,
none)` is the connection-lost return; `some (true, v)` is a success return.
The `obj == 'PINGPONG'` branch (line 202) is dead code: `recv_object` never
produces that value. -/
def poll_and_recv (dec : List ℕ → Option α) (H : ℕ) (ready : Bool)
    (stream : List ℕ) : Option (Bool × Option (RecvResult α)) :=
  if ready then
    match (recv_object dec H stream).1 with
    | .lost => some (false, none)
    | .exn => none
    | .ackSig => some (true, some .ackSig)
    | .obj a => some (true, some (.obj a))
  else some (true, none)

lemma digitsAux_foldr :
    ∀ (fuel n : ℕ), n ≤ fuel →
      (digitsAux fuel n).foldr (fun d a => a * 10 + d) 0 = n := by
  intro fuel
  induction fuel with
  | zero =>
    intro n h
    have : n = 0 := by omega
    simp [digitsAux, this]
  | succ f ih =>
    intro n h
    by_cases hn : n = 0
    · simp [digitsAux, hn]
    · have hdiv : n / 10 ≤ f := by omega
      simp only [digitsAux, hn, if_false, List.foldr_cons, ih _ hdiv]
      omega

lemma digitsAux_lt_ten :
    ∀ (fuel n d : ℕ), d ∈ digitsAux fuel n → d < 10 := by
  intro fuel
  induction fuel with
  | zero => intro n d h; simp [digitsAux] at h
  | succ f ih =>
    intro n d h
    by_cases hn : n = 0
    · simp [digitsAux, hn] at h
    · simp only [digitsAux, hn, if_false, List.mem_cons] at h
      rcases h with h | h
      · omega
      · exact ih _ _ h

lemma renderDec_ne_nil (n : ℕ) : renderDec n ≠ [] := by
  unfold renderDec
  split
  · simp
  · rename_i hn
    cases n with
    | zero => exact absurd rfl hn
    | succ m =>
      simp only [decDigits, digitsAux, Nat.succ_ne_zero, if_false]
      simp

lemma renderDec_digits (n : ℕ) : ∀ b ∈ renderDec n, isDigitByte b = true := by
  intro b hb
  unfold renderDec at hb
  split at hb
  · simp at hb
    simp [hb, isDigitByte]
  · simp only [List.mem_map, List.mem_reverse] at hb
    obtain ⟨d, hd, rfl⟩ := hb
    have := digitsAux_lt_ten n n d hd
    simp [isDigitByte]
    omega

lemma dropWhile_replicate_append (p : ℕ → Bool) (a : ℕ) (ha : p a = true) :
    ∀ (k : ℕ) (l : List ℕ),
      List.dropWhile p (List.replicate k a ++ l) = List.dropWhile p l := by
  intro k
  induction k with
  | zero => intro l; simp
  | succ j ih =>
    intro l
    simp [List.replicate_succ, List.dropWhile_cons, ha, ih l]

lemma stripSpaces_pad (l : List ℕ) (k : ℕ) (hne : l ≠ [])
    (hd : ∀ b ∈ l, isDigitByte b = true) :
    stripSpaces (l ++ List.replicate k 32) = l := by
  have hnospace : ∀ b ∈ l, (b == 32) = false := by
    intro b hb
    have h1 := hd b hb
    simp [isDigitByte] at h1
    simp only [beq_eq_false_iff_ne, ne_eq]
    omega
  obtain ⟨a, t, rfl⟩ : ∃ a t, l = a :: t := by
    cases l with
    | nil => exact absurd rfl hne
    | cons a t => exact ⟨a, t, rfl⟩
  unfold stripSpaces
  rw [List.cons_append, List.dropWhile_cons, hnospace a (by simp)]
  simp only [Bool.false_eq_true, if_false]
  have hrev : ((a :: (t ++ List.replicate k 32)).reverse) =
      List.replicate k 32 ++ (a :: t).reverse := by
    simp [List.reverse_cons, List.append_assoc]
  rw [hrev, dropWhile_replicate_append _ 32 (by simp)]
  obtain ⟨b, s, hbs⟩ : ∃ b s, (a :: t).reverse = b :: s := by
    cases h' : (a :: t).reverse with
    | nil =>
      exfalso
      have hlen0 := congrArg List.length h'
      simp at hlen0
    | cons b s => exact ⟨b, s, rfl⟩
  have hbmem : b ∈ a :: t := by
    have h2 : b ∈ (a :: t).reverse := by rw [hbs]; exact List.mem_cons_self b s
    exact List.mem_reverse.mp h2
  rw [hbs, List.dropWhile_cons, hnospace b hbmem]
  simp only [Bool.false_eq_true, if_false]
  rw [← hbs, List.reverse_reverse]

lemma foldl_renderDec (n : ℕ) :
    (renderDec n).foldl (fun a d => a * 10 + (d - 48)) 0 = n := by
  unfold renderDec
  split
  · rename_i h
    simp [h]
  · have hfun : (fun (x : ℕ) (y : ℕ) => y * 10 + (x + 48 - 48)) =
        (fun (d : ℕ) (a : ℕ) => a * 10 + d) := by
      funext x y
      omega
    rw [List.foldl_map, List.foldl_reverse, hfun]
    exact digitsAux_foldr n n le_rfl

lemma parseDec_lengthHeader (H n : ℕ) : parseDec (lengthHeader H n) = some n := by
  unfold parseDec lengthHeader
  rw [stripSpaces_pad _ _ (renderDec_ne_nil n) (renderDec_digits n)]
  rw [if_pos ⟨renderDec_ne_nil n, List.all_eq_true.mpr (renderDec_digits n)⟩]
  rw [foldl_renderDec]

lemma length_lengthHeader (H n : ℕ) (h : (renderDec n).length ≤ H) :
    (lengthHeader H n).length = H := by
  unfold lengthHeader
  rw [List.length_append, List.length_replicate]
  omega

lemma lengthHeader_take3_ne_ack (H n : ℕ) :
    (lengthHeader H n).take 3 ≠ asciiACK := by
  obtain ⟨a, t, hat⟩ : ∃ a t, renderDec n = a :: t := by
    cases h' : renderDec n with
    | nil => exact absurd h' (renderDec_ne_nil n)
    | cons a t => exact ⟨a, t, rfl⟩
  have hdig : isDigitByte a = true := renderDec_digits n a (by rw [hat]; simp)
  unfold lengthHeader
  rw [hat, List.cons_append, List.take_cons (by norm_num)]
  intro hcontra
  unfold asciiACK at hcontra
  have : a = 65 := (List.cons.injEq _ _ _ _).mp hcontra |>.1
  simp [isDigitByte] at hdig
  omega

/-!
Part 3: the per-connection send/acknowledge loops (the reliability state
machine), one step-function machine per loop:
  - `Server.__trainer_thread`        (networking.py lines 312-357)
  - `Server.__rollout_worker_thread` (lines 373-418)
  - `TrainerInterface.__run_thread`  (lines 447-500, inner loop 459-499)
  - `RolloutWorker.__run_thread`     (lines 809-863, inner loop 821-862)
Each iteration of a loop is one step.  Everything the other threads do to the
shared state between two iterations arrives as an input field (samples merged
into the shared buffer, a weights blob staged by `broadcast_model`, the
current shared weights version).  The outcome of the blocking select/send and
of the poll are inputs as well, so every interleaving and every transport
behaviour is a trace.  `sent` and `acked` are ghost counters: successful
`select_and_send_or_close_socket` calls initiated, and ACK receipts.  A `break`
sets `broken` and freezes the machine (the connection is closed and the loop
has exited).
-/

/-- Outcome of the `poll_and_recv_or_close_socket` call in one iteration:
`pollFail` is `(False, None)`, `pollIdle` is `(True, None)`, `pollAck` is
`(True, 'ACK')`, `pollObj` is `(True, obj)` for a payload object (the payload
value itself is tracked by the relay model of Part 4, not here). -/
inductive PollEvent
  | pollFail
  | pollIdle
  | pollAck
  | pollObj
  deriving Repr, DecidableEq

/-- The per-direction connection state shared verbatim by the four loops:
the `wait_ack` flag, whether the loop has exited (`break` reached, connection
closed), and two ghost counters. -/
structure Conn where
  waitAck : Bool
  broken : Bool
  sent : ℕ
  acked : ℕ
  deriving Repr, DecidableEq

/-- The send phase skeleton, identical in all four loops up to the guard
`ready` (data available / new version / staged blob) and the lock held around
it: when `ready` and `wait_ack` is false, attempt the send; success sets
`wait_ack` (ghost `sent` incremented), failure breaks; when `ready` and
waiting, a reached ACK timeout breaks (`clearWaitOnTimeout` tells whether
that branch also resets `wait_ack`, which `Server.__rollout_worker_thread`
deliberately skips — source comment at line 402). -/
def sendPhase (clearWaitOnTimeout ready sendOk ackTimedOut : Bool)
    (c : Conn) : Conn :=
  if ready then
    if c.waitAck = false then
      if sendOk then { c with waitAck := true, sent := c.sent + 1 }
      else { c with broken := true }
    else if ackTimedOut then
      { c with waitAck := !clearWaitOnTimeout, broken := true }
    else c
  else c

/-- The poll phase skeleton, identical in all four loops: a failed poll
breaks; an ACK clears `wait_ack` (ghost `acked` incremented); a payload
object is handled by the loop-specific data update; on an idle poll the two
client loops break when the receive-inactivity timeout has been reached
(`recvTimedOut` is always false for the two server handlers, which have no
such timeout). -/
def pollPhase (poll : PollEvent) (recvTimedOut : Bool) (c : Conn) : Conn :=
  match poll with
  | .pollFail => { c with broken := true }
  | .pollIdle => if recvTimedOut then { c with broken := true } else c
  | .pollAck => { c with waitAck := false, acked := c.acked + 1 }
  | .pollObj => c

/-- One loop iteration on the connection state: nothing once broken;
otherwise the send phase, then — unless the send phase broke out of the
loop — the poll phase. -/
def connStep (clearWaitOnTimeout ready sendOk ackTimedOut : Bool)
    (poll : PollEvent) (recvTimedOut : Bool) (c : Conn) : Conn :=
  if c.broken then c
  else if (sendPhase clearWaitOnTimeout ready sendOk ackTimedOut c).broken then
    sendPhase clearWaitOnTimeout ready sendOk ackTimedOut c
  else pollPhase poll recvTimedOut
    (sendPhase clearWaitOnTimeout ready sendOk ackTimedOut c)

/-- State of the `Server.__trainer_thread` handler loop: the shared buffer's
memory and the connection state. -/
structure STState (α : Type u) where
  mem : List α
  conn : Conn

/-- Per-iteration input of `Server.__trainer_thread`: `ext` are the samples
worker handlers merge into the shared buffer before this iteration takes the
buffer lock (lines 412-414), `sendOk` the outcome of
`select_and_send_or_close_socket`, `ackTimedOut` whether the elapsed time
since the last send reached `ACK_TIMEOUT_SERVER_TO_TRAINER`. -/
structure STInput (α : Type u) where
  ext : List α
  sendOk : Bool
  ackTimedOut : Bool
  poll : PollEvent

/-- One iteration of `Server.__trainer_thread` (lines 319-357).  Send phase
under the buffer lock (321-342), guard: the buffer holds at least
`samples_per_server_batch` samples (line 322); a successful send clears the
buffer (line 332); the timeout branch resets `wait_ack` (line 340).  Poll
phase (344-356); a received weights object is stored under the weights lock
(350-353, tracked by the relay model of Part 4). -/
def serverTrainerStep (maxlen batch : ℕ) (s : STState α) (i : STInput α) :
    STState α :=
  if s.conn.broken then s
  else
    let mem := clipList maxlen (s.mem ++ i.ext)
    let ready := decide (batch ≤ mem.length)
    { mem := if ready && (s.conn.waitAck == false) && i.sendOk then [] else mem
      conn := connStep true ready i.sendOk i.ackTimedOut i.poll false s.conn }

/-- Initial state of a `Server.__trainer_thread` handler (lines 317-318):
`wait_ack = False`; the shared buffer may already hold `m0`. -/
def serverTrainerInit (m0 : List α) : STState α :=
  ⟨m0, ⟨false, false, 0, 0⟩⟩

def serverTrainerRun (maxlen batch : ℕ) (m0 : List α)
    (tr : List (STInput α)) : STState α :=
  tr.foldl (serverTrainerStep maxlen batch) (serverTrainerInit m0)

/-- State of the `Server.__rollout_worker_thread` handler loop:
`worker_weights_id` and the connection state. -/
structure SWState where
  workerId : ℕ
  conn : Conn

/-- Per-iteration input of `Server.__rollout_worker_thread`: `curWid` is the
shared `__weights_id` read under the weights lock. -/
structure SWInput where
  curWid : ℕ
  sendOk : Bool
  ackTimedOut : Bool
  poll : PollEvent

/-- One iteration of `Server.__rollout_worker_thread` (lines 381-418).  Send
phase under the weights lock (383-404), guard: `worker_weights_id` differs
from the shared version (line 384); a successful send adopts the version
(line 394); the timeout branch leaves `wait_ack` set (comment at line 402).
Poll phase (406-417); a received buffer is merged into the shared buffer
under the buffer lock (410-414, tracked by the relay model of Part 4). -/
def serverWorkerStep (s : SWState) (i : SWInput) : SWState :=
  if s.conn.broken then s
  else
    let ready := decide (s.workerId ≠ i.curWid)
    { workerId := if ready && (s.conn.waitAck == false) && i.sendOk then
        i.curWid else s.workerId
      conn := connStep false ready i.sendOk i.ackTimedOut i.poll false s.conn }

/-- Initial state of a `Server.__rollout_worker_thread` handler (lines
378-380): `worker_weights_id = 0`, `wait_ack = False`. -/
def serverWorkerInit : SWState :=
  ⟨0, ⟨false, false, 0, 0⟩⟩

def serverWorkerRun (tr : List SWInput) : SWState :=
  tr.foldl serverWorkerStep serverWorkerInit

/-- State of the `TrainerInterface.__run_thread` inner loop: the
staged-but-unsent blob `self.__weights` and the connection state. -/
structure TCState (ω : Type u) where
  weights : Option ω
  conn : Conn

/-- Per-iteration input of the trainer-side client: `staged` is a blob staged
by a concurrent `broadcast_model` call (lines 502-516), replacing any unsent
one; `recvTimedOut` whether nothing has been received for longer than
`RECV_TIMEOUT_TRAINER_FROM_SERVER` (line 496). -/
structure TCInput (ω : Type u) where
  staged : Option ω
  sendOk : Bool
  ackTimedOut : Bool
  poll : PollEvent
  recvTimedOut : Bool

/-- One iteration of the `TrainerInterface.__run_thread` inner loop (lines
459-499).  Send phase under the weights lock (461-481), guard: the weights
slot is non-`None` (line 462); a successful send resets the slot to `None`
(line 472); the timeout branch resets `wait_ack` (line 479).  Poll phase
(483-498): a received buffer is merged under the buffer lock (487-492,
modelled for `retrieve_buffer` by Part 1), and an idle poll past the
inactivity timeout breaks (496-498). -/
def trainerClientStep (s : TCState ω) (i : TCInput ω) : TCState ω :=
  if s.conn.broken then s
  else
    let w := match i.staged with
      | some x => some x
      | none => s.weights
    let ready := w.isSome
    { weights := if ready && (s.conn.waitAck == false) && i.sendOk then
        none else w
      conn := connStep true ready i.sendOk i.ackTimedOut i.poll
        i.recvTimedOut s.conn }

/-- Initial state of one trainer-side connection (lines 452-454): `wait_ack =
False`; the weights slot may hold a leftover blob `w0`. -/
def trainerClientInit (w0 : Option ω) : TCState ω :=
  ⟨w0, ⟨false, false, 0, 0⟩⟩

def trainerClientRun (w0 : Option ω) (tr : List (TCInput ω)) : TCState ω :=
  tr.foldl trainerClientStep (trainerClientInit w0)

/-- State of the `RolloutWorker.__run_thread` inner loop: the memory of the
outbound buffer `self.__buffer` and the connection state. -/
structure WCState (α : Type u) where
  mem : List α
  conn : Conn

/-- Per-iteration input of the worker-side client: `ext` are the samples
`send_and_clear_buffer` merges into `self.__buffer` under its lock (lines
1067-1074). -/
structure WCInput (α : Type u) where
  ext : List α
  sendOk : Bool
  ackTimedOut : Bool
  poll : PollEvent
  recvTimedOut : Bool

/-- One iteration of the `RolloutWorker.__run_thread` inner loop (lines
821-862).  Send phase under the buffer lock (823-844), guard: the buffer
holds at least `samples_per_worker_batch` samples (line 824); a successful
send clears the buffer (line 835); the timeout branch resets `wait_ack`
(line 842).  Poll phase (846-861): received weights are stored under the
weights lock (850-855), and an idle poll past the inactivity timeout breaks
(859-861). -/
def workerClientStep (maxlen batch : ℕ) (s : WCState α) (i : WCInput α) :
    WCState α :=
  if s.conn.broken then s
  else
    let mem := clipList maxlen (s.mem ++ i.ext)
    let ready := decide (batch ≤ mem.length)
    { mem := if ready && (s.conn.waitAck == false) && i.sendOk then [] else mem
      conn := connStep true ready i.sendOk i.ackTimedOut i.poll
        i.recvTimedOut s.conn }

/-- Initial state of one worker-side connection (lines 814-816): `wait_ack =
False`; the outbound buffer may already hold `m0`. -/
def workerClientInit (m0 : List α) : WCState α :=
  ⟨m0, ⟨false, false, 0, 0⟩⟩

def workerClientRun (maxlen batch : ℕ) (m0 : List α)
    (tr : List (WCInput α)) : WCState α :=
  tr.foldl (workerClientStep maxlen batch) (workerClientInit m0)

lemma foldl_inv {σ : Type u} {ι : Type v} (step : σ → ι → σ) (P : σ → Prop)
    (hstep : ∀ s i, P s → P (step s i)) :
    ∀ (tr : List ι) (s : σ), P s → P (tr.foldl step s) := by
  intro tr
  induction tr with
  | nil => intro s h; exact h
  | cons i tr ih => intro s h; exact ih _ (hstep s i h)

/-- The outstanding-count invariant of a connection state: never more than
one unacknowledged send, and while the loop is alive the number of
unacknowledged sends is bounded by the `wait_ack` bit. -/
def OneOutstanding (c : Conn) : Prop :=
  c.sent ≤ c.acked + 1 ∧ (c.broken = false → c.sent ≤ c.acked + cond c.waitAck 1 0)

lemma sendPhase_inv (cw ready sendOk ackT : Bool) (c : Conn)
    (hbr : c.broken = false) (h : OneOutstanding c) :
    OneOutstanding (sendPhase cw ready sendOk ackT c) := by
  obtain ⟨h1, h2⟩ := h
  rcases c with ⟨wa, br, sent, acked⟩
  simp only at hbr
  subst hbr
  simp only [OneOutstanding] at h1 h2 ⊢
  cases wa <;> cases ready <;> cases sendOk <;> cases ackT <;> cases cw <;>
    simp_all [sendPhase, cond]

lemma pollPhase_inv (poll : PollEvent) (recvT : Bool) (c : Conn)
    (hbr : c.broken = false) (h : OneOutstanding c) :
    OneOutstanding (pollPhase poll recvT c) := by
  obtain ⟨h1, h2⟩ := h
  rcases c with ⟨wa, br, sent, acked⟩
  simp only at hbr
  subst hbr
  simp only [OneOutstanding] at h1 h2 ⊢
  cases poll <;> cases recvT <;> cases wa <;>
    simp_all [pollPhase, cond] <;> omega

lemma connStep_inv (cw ready sendOk ackT : Bool) (poll : PollEvent)
    (recvT : Bool) (c : Conn) (h : OneOutstanding c) :
    OneOutstanding (connStep cw ready sendOk ackT poll recvT c) := by
  unfold connStep
  split
  · exact h
  · rename_i hb
    have hbr : c.broken = false := by
      cases hc : c.broken
      · rfl
      · exact absurd hc hb
    split
    · exact sendPhase_inv cw ready sendOk ackT c hbr h
    · rename_i hb1
      have hbr1 : (sendPhase cw ready sendOk ackT c).broken = false := by
        cases hc : (sendPhase cw ready sendOk ackT c).broken
        · rfl
        · exact absurd hc hb1
      exact pollPhase_inv poll recvT _ hbr1
        (sendPhase_inv cw ready sendOk ackT c hbr h)

lemma pollPhase_sent (poll : PollEvent) (recvT : Bool) (c : Conn) :
    (pollPhase poll recvT c).sent = c.sent := by
  cases poll <;> cases recvT <;> simp [pollPhase]

/-- A send is only ever initiated from the idle state: while `wait_ack` is
set, one loop iteration performs no send at all (`sent` unchanged); from the
idle state it performs at most one. -/
lemma connStep_send_gated (cw ready sendOk ackT : Bool) (poll : PollEvent)
    (recvT : Bool) (c : Conn) :
    (connStep cw ready sendOk ackT poll recvT c).sent ≤
      c.sent + cond c.waitAck 0 1 := by
  have hs : (sendPhase cw ready sendOk ackT c).sent ≤
      c.sent + cond c.waitAck 0 1 := by
    rcases c with ⟨wa, br, sent, acked⟩
    cases wa <;> cases ready <;> cases sendOk <;> cases ackT <;> cases cw <;>
      simp_all [sendPhase, cond]
  unfold connStep
  split
  · cases c.waitAck <;> simp [cond]
  · split
    · exact hs
    · rw [pollPhase_sent]
      exact hs

lemma serverTrainerStep_conn_inv (maxlen batch : ℕ) (s : STState α)
    (i : STInput α) (h : OneOutstanding s.conn) :
    OneOutstanding (serverTrainerStep maxlen batch s i).conn := by
  unfold serverTrainerStep
  split
  · exact h
  · exact connStep_inv _ _ _ _ _ _ _ h

lemma serverWorkerStep_conn_inv (s : SWState) (i : SWInput)
    (h : OneOutstanding s.conn) :
    OneOutstanding (serverWorkerStep s i).conn := by
  unfold serverWorkerStep
  split
  · exact h
  · exact connStep_inv _ _ _ _ _ _ _ h

lemma trainerClientStep_conn_inv (s : TCState ω) (i : TCInput ω)
    (h : OneOutstanding s.conn) :
    OneOutstanding (trainerClientStep s i).conn := by
  unfold trainerClientStep
  split
  · exact h
  · exact connStep_inv _ _ _ _ _ _ _ h

lemma workerClientStep_conn_inv (maxlen batch : ℕ) (s : WCState α)
    (i : WCInput α) (h : OneOutstanding s.conn) :
    OneOutstanding (workerClientStep maxlen batch s i).conn := by
  unfold workerClientStep
  split
  · exact h
  · exact connStep_inv _ _ _ _ _ _ _ h

lemma init_oneOutstanding : OneOutstanding ⟨false, false, 0, 0⟩ := by
  constructor <;> simp [cond]

/-!
Part 4: the relay's shared weights slot and version counter
(`Server.__init__` lines 283-288, `Server.__trainer_thread` lines 344-353,
`Server.__rollout_worker_thread` lines 378-404) as an interleaving model.
Both mutations run under the weights lock, so the atomic events are the
trainer handler's weights receipt and one worker handler's send phase; a
trace is any interleaving of them.  Send failures and loop breaks only cut a
trace short, which quantifying over all traces covers.
-/

/-- An atomic event on the relay's weights state: `trainerRecv w` is the
trainer handler receiving a weights object (lines 350-353: the slot is
overwritten with `obj` — never `None`, by the guard on line 348 — and the
version incremented by one); `workerSend` is one worker handler's send phase
(lines 383-404: under the weights lock, if the handler's
`worker_weights_id` differs from the shared version, it transmits the
current slot contents and adopts the shared version, lines 386-394). -/
inductive SrvEvent (ω : Type u)
  | trainerRecv (w : ω)
  | workerSend

/-- The relay's weights state plus one worker handler's `worker_weights_id`,
with ghost histories: `adopted` records the version adopted at each
successful send (newest last) and `sentBlobs` the slot contents transmitted
there. -/
structure SrvState (ω : Type u) where
  weights : Option ω
  wid : ℕ
  workerId : ℕ
  adopted : List ℕ
  sentBlobs : List (Option ω)

def srvStep (s : SrvState ω) : SrvEvent ω → SrvState ω
  | .trainerRecv w => { s with weights := some w, wid := s.wid + 1 }
  | .workerSend =>
    if s.workerId ≠ s.wid then
      { s with
        workerId := s.wid
        adopted := s.adopted ++ [s.wid]
        sentBlobs := s.sentBlobs ++ [s.weights] }
    else s

/-- `Server.__init__` (lines 283-288): `__weights = None`, `__weights_id =
0`; a fresh worker handler (line 378): `worker_weights_id = 0`. -/
def srvInit : SrvState ω := ⟨none, 0, 0, [], []⟩

def srvRun (es : List (SrvEvent ω)) : SrvState ω :=
  es.foldl srvStep srvInit

/-- The relay invariant tying the version counter, the worker handler's
adopted version, and the ghost histories together. -/
def SrvInv (s : SrvState ω) : Prop :=
  s.workerId ≤ s.wid ∧
  (s.weights = none → s.wid = 0) ∧
  (s.wid = 0 → s.adopted = []) ∧
  List.Sorted (· ≤ ·) s.adopted ∧
  (∀ x ∈ s.adopted, x ≤ s.workerId) ∧
  (∀ b ∈ s.sentBlobs, b.isSome = true)

lemma srvStep_inv (s : SrvState ω) (e : SrvEvent ω) (h : SrvInv s) :
    SrvInv (srvStep s e) := by
  obtain ⟨h1, h2, h3, h4, h5, h6⟩ := h
  cases e with
  | trainerRecv w =>
    refine ⟨by simp [srvStep]; omega, by simp [srvStep], ?_, by simpa [srvStep] using h4,
      by simpa [srvStep] using h5, by simpa [srvStep] using h6⟩
    simp [srvStep]
  | workerSend =>
    by_cases hg : s.workerId ≠ s.wid
    · have hwid : 1 ≤ s.wid := by omega
      have hweights : s.weights.isSome = true := by
        cases hw : s.weights with
        | none => exact absurd (h2 hw) (by omega)
        | some w => rfl
      simp only [srvStep, if_pos hg]
      refine ⟨le_rfl, h2, by intro h0; simp at h0; exact absurd h0 (by omega),
        ?_, ?_, ?_⟩
      · rw [List.Sorted, List.pairwise_append]
        exact ⟨h4, by simp, by intro a ha b hb; simp at hb; subst hb; exact le_trans (h5 a ha) h1⟩
      · intro x hx
        simp at hx ⊢
        rcases hx with hx | hx
        · exact le_trans (h5 x hx) h1
        · omega
      · intro b hb
        simp at hb
        rcases hb with hb | hb
        · exact h6 b hb
        · subst hb; exact hweights
    · simp only [srvStep, if_neg hg]
      exact ⟨h1, h2, h3, h4, h5, h6⟩

lemma srvRun_inv (es : List (SrvEvent ω)) : SrvInv (srvRun es) := by
  exact foldl_inv srvStep SrvInv (fun s e h => srvStep_inv s e h) es srvInit
    ⟨le_rfl, fun _ => rfl, fun _ => rfl, List.sorted_nil,
     by intro x hx; simp [srvInit] at hx,
     by intro b hb; simp [srvInit] at hb⟩

/-!
Part 5: lock scopes.  One iteration of `Server.__trainer_thread` (lines
321-357) and of the `RolloutWorker.__run_thread` inner loop (lines 823-862)
is linearized into its sequence of primitive operations in source order, and
each operation is tagged with whether the buffer lock and the weights lock
are held while it runs.
-/

/-- Primitive operations of one loop iteration: lock acquire/release for the
buffer lock and the weights lock, the blocking network calls
(`select_and_send_or_close_socket` = select wait + `sendall`;
`poll_and_recv_or_close_socket` = poll + `recv` loops + ACK write-back), and
the in-memory mutations (buffer `clear()`, weights-slot store). -/
inductive LoopOp
  | acqBuf
  | relBuf
  | acqW
  | relW
  | selectSend
  | pollRecv
  | clearBuf
  | storeWeights
  deriving Repr, DecidableEq

/-- The tail of an iteration of either loop after the send phase: the
receive poll, then on a received payload object the weights-lock-scoped
store (`Server.__trainer_thread` lines 348-353, `RolloutWorker.__run_thread`
lines 850-855); on a failed poll the loop breaks. -/
def pollOps : PollEvent → List LoopOp
  | .pollObj => [.pollRecv, .acqW, .storeWeights, .relW]
  | _ => [.pollRecv]

/-- One iteration of `Server.__trainer_thread` (lines 321-357) in source
order.  `acquire` at 321; if the batch is ready (322) and idle (323), the
send (325) runs, then on success `clear()` (332) and `release` (342), while
on failure `release` (330) and break; if waiting and the ACK timed out,
`release` (339) and break; otherwise `release` (342) and the poll phase
(344-356). -/
def serverTrainerIterOps (dataReady waitAck sendOk ackTimedOut : Bool)
    (poll : PollEvent) : List LoopOp :=
  [.acqBuf] ++
    (if dataReady then
      if !waitAck then
        if sendOk then [.selectSend, .clearBuf, .relBuf] ++ pollOps poll
        else [.selectSend, .relBuf]
      else if ackTimedOut then [.relBuf]
      else [.relBuf] ++ pollOps poll
    else [.relBuf] ++ pollOps poll)

/-- One iteration of the `RolloutWorker.__run_thread` inner loop (lines
823-862) in source order.  `acquire` at 823; if a batch is available (824)
and idle (826), the send (828) runs, then on success `clear()` (835) and
`release` (844), while on failure `release` (832) and break; if waiting and
the ACK timed out, `release` (841) and break; otherwise `release` (844) and
the poll phase (846-861). -/
def rolloutWorkerIterOps (dataReady waitAck sendOk ackTimedOut : Bool)
    (poll : PollEvent) : List LoopOp :=
  [.acqBuf] ++
    (if dataReady then
      if !waitAck then
        if sendOk then [.selectSend, .clearBuf, .relBuf] ++ pollOps poll
        else [.selectSend, .relBuf]
      else if ackTimedOut then [.relBuf]
      else [.relBuf] ++ pollOps poll
    else [.relBuf] ++ pollOps poll)

/-- Tag every operation with (buffer lock held, weights lock held) while it
runs, scanning in program order. -/
def annotate : Bool → Bool → List LoopOp → List (LoopOp × Bool × Bool)
  | _, _, [] => []
  | b, w, .acqBuf :: rest => (.acqBuf, b, w) :: annotate true w rest
  | b, w, .relBuf :: rest => (.relBuf, b, w) :: annotate false w rest
  | b, w, .acqW :: rest => (.acqW, b, w) :: annotate b true rest
  | b, w, .relW :: rest => (.relW, b, w) :: annotate b false rest
  | b, w, op :: rest => (op, b, w) :: annotate b w rest

/-- Is some lock held while a blocking network call runs? -/
def networkUnderLock (l : List (LoopOp × Bool × Bool)) : Bool :=
  l.any fun t =>
    (t.1 == LoopOp.selectSend || t.1 == LoopOp.pollRecv) && (t.2.1 || t.2.2)

/-- Does every in-memory mutation run under its own lock (buffer `clear()`
under the buffer lock, weights store under the weights lock)? -/
def mutationsLocked (l : List (LoopOp × Bool × Bool)) : Bool :=
  l.all fun t =>
    match t.1 with
    | .clearBuf => t.2.1
    | .storeWeights => t.2.2
    | _ => true

/-- Is the receive poll always lock-free? -/
def pollLockFree (l : List (LoopOp × Bool × Bool)) : Bool :=
  l.all fun t => !(t.1 == LoopOp.pollRecv) || (!t.2.1 && !t.2.2)

/-- Is every send performed while the buffer lock is held? -/
def sendsUnderBufLock (l : List (LoopOp × Bool × Bool)) : Bool :=
  l.all fun t => !(t.1 == LoopOp.selectSend) || t.2.1

end TMRL

namespace TMRL

/-- C1: For every capacity and every sequence of `append_sample` calls on a
fresh buffer, the buffer length never exceeds `maxlen`, and the retained
entries are exactly the most recently appended ones in their original relative
order (the final suffix of the appended sequence).  Since this holds for every
sequence `xs`, it holds at every instant of any run. -/
theorem claim_C1_append_capacity_suffix :
    ∀ (α : Type u) (m : ℕ) (xs : List α),
      (xs.foldl Buffer.append_sample (Buffer.init m)).memory.length ≤ m ∧
      (xs.foldl Buffer.append_sample (Buffer.init m)).memory =
        xs.drop (xs.length - m) := by
  intro α m xs
  have h := foldl_append_sample_memory m xs (Buffer.init m) (by simp [Buffer.init]) rfl
  have h2 : (xs.foldl Buffer.append_sample (Buffer.init m)).memory =
      xs.drop (xs.length - m) := by
    rw [h]
    simp [Buffer.init]
  constructor
  · rw [h2, List.length_drop]
    omega
  · exact h2

/-- C2: Merging `other` into `b` (`__iadd__`) yields memory equal to the
concatenation of `b`'s then `other`'s memory, truncated from the front to `b`'s
capacity, and the four statistics equal `other`'s exactly, regardless of `b`'s
previous statistics. -/
theorem claim_C2_iadd_concat_and_stats :
    ∀ (α : Type u) (b other : Buffer α),
      (b.iadd other).memory =
        (b.memory ++ other.memory).drop
          (b.memory.length + other.memory.length - b.maxlen) ∧
      (b.iadd other).memory.length ≤ b.maxlen ∧
      (b.iadd other).stat_train_return = other.stat_train_return ∧
      (b.iadd other).stat_test_return = other.stat_test_return ∧
      (b.iadd other).stat_train_steps = other.stat_train_steps ∧
      (b.iadd other).stat_test_steps = other.stat_test_steps := by
  intro α b other
  have hmem : (b.iadd other).memory =
      (b.memory ++ other.memory).drop
        (b.memory.length + other.memory.length - b.maxlen) := by
    simp [Buffer.iadd, Buffer.clip_to_maxlen, clipList_eq_drop]
  refine ⟨hmem, ?_, rfl, rfl, rfl, rfl⟩
  rw [hmem, List.length_drop]
  simp
  omega

/-- C9: `retrieve_buffer` returns the previous buffer state unchanged, and the
internal buffer immediately afterwards has length zero. -/
theorem claim_C9_retrieve_buffer_snapshot_reset :
    ∀ (α : Type u) (b : Buffer α),
      (retrieve_buffer b).1 = b ∧ (retrieve_buffer b).2.size = 0 := by
  intro α b
  exact ⟨rfl, rfl⟩

/-- C4: Round-trip: framing a serialized payload with `send_object` and
decoding with the receive path reproduces the payload bytes exactly and
consumes nothing past the frame; and a header equal to the ACK token yields
the ACK signal without reading any payload body byte.  Hypotheses: the decimal
length text fits in the configured header width, and the width holds the
3-byte ACK token — the spec's "enough digits for realistic payload sizes". -/
theorem claim_C4_frame_roundtrip_and_ack :
    ∀ (H : ℕ) (msg rest : List ℕ),
      (renderDec msg.length).length ≤ H → 3 ≤ H →
      recvFrame H (send_object H msg ++ rest) = (.body msg, rest) ∧
      recvFrame H (ackHeader H ++ rest) = (.ackSig, rest) := by
  intro H msg rest hfit h3
  have hhl : (lengthHeader H msg.length).length = H := length_lengthHeader H _ hfit
  constructor
  · unfold send_object recvFrame
    rw [List.append_assoc]
    have hlen : ¬ ((lengthHeader H msg.length ++ (msg ++ rest)).length < H) := by
      rw [List.length_append, hhl]
      omega
    rw [if_neg hlen, List.take_left' hhl, List.drop_left' hhl]
    rw [if_neg (lengthHeader_take3_ne_ack H msg.length)]
    rw [parseDec_lengthHeader]
    have hlen2 : ¬ ((msg ++ rest).length < msg.length) := by
      rw [List.length_append]
      omega
    simp only [if_neg hlen2, List.take_left' rfl, List.drop_left' rfl]
  · have hal : (ackHeader H).length = H := by
      unfold ackHeader asciiACK
      rw [List.length_append, List.length_replicate]
      simp only [List.length_cons, List.length_nil]
      omega
    unfold recvFrame
    have hlen : ¬ ((ackHeader H ++ rest).length < H) := by
      rw [List.length_append, hal]
      omega
    rw [if_neg hlen, List.take_left' hal]
    have htake3 : (ackHeader H).take 3 = asciiACK := rfl
    rw [if_pos htake3, List.drop_left' hal]

/-- C4 witness: concrete instance at header width 12 with payload bytes
`[7, 8, 9]` and trailing stream `[1, 2]`. -/
theorem claim_C4_frame_roundtrip_and_ack_witness :
    (renderDec (([7, 8, 9] : List ℕ)).length).length ≤ 12 ∧ (3 : ℕ) ≤ 12 ∧
    recvFrame 12 (send_object 12 [7, 8, 9] ++ [1, 2]) = (.body [7, 8, 9], [1, 2]) ∧
    recvFrame 12 (ackHeader 12 ++ [1, 2]) = (.ackSig, [1, 2]) :=
  ⟨by decide, by decide,
   (claim_C4_frame_roundtrip_and_ack 12 [7, 8, 9] [1, 2] (by decide) (by decide)).1,
   (claim_C4_frame_roundtrip_and_ack 12 [7, 8, 9] [1, 2] (by decide) (by decide)).2⟩

/-- C5 is a code bug; this theorem evaluates the code at the failing input: on
a literal PING header the receive path raises an uncaught `ValueError` inside
`int(msg[:HEADER_SIZE])` (modelled `.exn`) instead of returning the keepalive
indicator promised by `recv_object`'s docstring, and
`poll_and_recv_or_close_socket` propagates the exception (modelled `none`)
instead of mapping the keepalive to `(True, None)` — its `'PINGPONG'` branch
is dead code. -/
theorem claim_C5_ping_header_raises :
    recv_object (fun b => some b) 12 (pingHeader 12 ++ [1, 2]) = (.exn, [1, 2]) ∧
    poll_and_recv (fun b => some b) 12 true (pingHeader 12 ++ [1, 2]) = none ∧
    poll_and_recv (fun b => some b) 12 true (pingHeader 12 ++ [1, 2]) ≠
      some (true, none) := by
  decide

/-- C3: In every per-connection send/acknowledge loop (server-to-trainer,
server-to-worker, trainer-side client, worker-side client), at most one object
is outstanding per direction at any instant: along every trace of inputs
(covering every interleaving, transport outcome and timing) the number of
sends initiated never exceeds the number of ACKs received plus one; and no
iteration that starts in the `wait_ack` state initiates a send (the `sent`
counter is unchanged), so after a successful send no second send is initiated
until an ACK arrives (which clears `wait_ack`) or the loop breaks and the
connection is closed. -/
theorem claim_C3_at_most_one_outstanding_per_direction :
    (∀ (α : Type u) (maxlen batch : ℕ) (m0 : List α) (tr : List (STInput α)),
      (serverTrainerRun maxlen batch m0 tr).conn.sent ≤
        (serverTrainerRun maxlen batch m0 tr).conn.acked + 1) ∧
    (∀ (α : Type u) (maxlen batch : ℕ) (s : STState α) (i : STInput α),
      (serverTrainerStep maxlen batch s i).conn.sent ≤
        s.conn.sent + cond s.conn.waitAck 0 1) ∧
    (∀ (tr : List SWInput),
      (serverWorkerRun tr).conn.sent ≤ (serverWorkerRun tr).conn.acked + 1) ∧
    (∀ (s : SWState) (i : SWInput),
      (serverWorkerStep s i).conn.sent ≤
        s.conn.sent + cond s.conn.waitAck 0 1) ∧
    (∀ (ω : Type u) (w0 : Option ω) (tr : List (TCInput ω)),
      (trainerClientRun w0 tr).conn.sent ≤
        (trainerClientRun w0 tr).conn.acked + 1) ∧
    (∀ (ω : Type u) (s : TCState ω) (i : TCInput ω),
      (trainerClientStep s i).conn.sent ≤
        s.conn.sent + cond s.conn.waitAck 0 1) ∧
    (∀ (α : Type u) (maxlen batch : ℕ) (m0 : List α) (tr : List (WCInput α)),
      (workerClientRun maxlen batch m0 tr).conn.sent ≤
        (workerClientRun maxlen batch m0 tr).conn.acked + 1) ∧
    (∀ (α : Type u) (maxlen batch : ℕ) (s : WCState α) (i : WCInput α),
      (workerClientStep maxlen batch s i).conn.sent ≤
        s.conn.sent + cond s.conn.waitAck 0 1) := by
  refine ⟨?_, ?_, ?_, ?_, ?_, ?_, ?_, ?_⟩
  · intro α maxlen batch m0 tr
    have h := foldl_inv (serverTrainerStep maxlen batch)
      (fun s => OneOutstanding s.conn)
      (fun s i h => serverTrainerStep_conn_inv maxlen batch s i h)
      tr (serverTrainerInit m0) init_oneOutstanding
    exact h.1
  · intro α maxlen batch s i
    unfold serverTrainerStep
    split
    · cases s.conn.waitAck <;> simp [cond]
    · exact connStep_send_gated _ _ _ _ _ _ _
  · intro tr
    have h := foldl_inv serverWorkerStep (fun s => OneOutstanding s.conn)
      (fun s i h => serverWorkerStep_conn_inv s i h)
      tr serverWorkerInit init_oneOutstanding
    exact h.1
  · intro s i
    unfold serverWorkerStep
    split
    · cases s.conn.waitAck <;> simp [cond]
    · exact connStep_send_gated _ _ _ _ _ _ _
  · intro ω w0 tr
    have h := foldl_inv trainerClientStep (fun s => OneOutstanding s.conn)
      (fun s i h => trainerClientStep_conn_inv s i h)
      tr (trainerClientInit w0) init_oneOutstanding
    exact h.1
  · intro ω s i
    unfold trainerClientStep
    split
    · cases s.conn.waitAck <;> simp [cond]
    · exact connStep_send_gated _ _ _ _ _ _ _
  · intro α maxlen batch m0 tr
    have h := foldl_inv (workerClientStep maxlen batch)
      (fun s => OneOutstanding s.conn)
      (fun s i h => workerClientStep_conn_inv maxlen batch s i h)
      tr (workerClientInit m0) init_oneOutstanding
    exact h.1
  · intro α maxlen batch s i
    unfold workerClientStep
    split
    · cases s.conn.waitAck <;> simp [cond]
    · exact connStep_send_gated _ _ _ _ _ _ _

/-- C7: The weights version counter only increases — each weights receipt
from a trainer increments it by exactly one (under the weights lock), no
event decreases it — and the sequence of versions a worker connection handler
adopts at its sends is sorted (non-decreasing) over every interleaving of
trainer receipts and worker sends. -/
theorem claim_C7_weights_version_monotone :
    (∀ (ω : Type u) (s : SrvState ω) (w : ω),
      (srvStep s (SrvEvent.trainerRecv w)).wid = s.wid + 1) ∧
    (∀ (ω : Type u) (s : SrvState ω) (e : SrvEvent ω),
      s.wid ≤ (srvStep s e).wid) ∧
    (∀ (ω : Type u) (es : List (SrvEvent ω)),
      List.Sorted (· ≤ ·) (srvRun es).adopted) := by
  refine ⟨?_, ?_, ?_⟩
  · intro ω s w
    rfl
  · intro ω s e
    cases e with
    | trainerRecv w => simp [srvStep]
    | workerSend =>
      by_cases hg : s.workerId ≠ s.wid <;> simp [srvStep, hg]
  · intro ω es
    exact (srvRun_inv es).2.2.2.1

/-- C10: A worker connection handler never transmits the `None` placeholder:
along every interleaving, every blob it has transmitted is a real weights
object (`isSome`), and while the relay's weights slot is still `None` no send
has happened (`adopted` is empty); a fresh handler and the relay both start
at version 0 with an empty slot. -/
theorem claim_C10_no_send_before_first_upload :
    (∀ (ω : Type u) (es : List (SrvEvent ω)),
      ((srvRun es).sentBlobs.all fun b => b.isSome) = true) ∧
    (∀ (ω : Type u) (es : List (SrvEvent ω)),
      (!(srvRun es).weights.isNone || (srvRun es).adopted.isEmpty) = true) ∧
    (srvInit : SrvState PUnit).workerId = 0 ∧
    (srvInit : SrvState PUnit).wid = 0 ∧
    (srvInit : SrvState PUnit).weights = none := by
  refine ⟨?_, ?_, rfl, rfl, rfl⟩
  · intro ω es
    rw [List.all_eq_true]
    exact fun b hb => (srvRun_inv es).2.2.2.2.2 b hb
  · intro ω es
    obtain ⟨h1, h2, h3, h4, h5, h6⟩ := srvRun_inv es
    cases hw : (srvRun es).weights with
    | none => simp [hw, h3 (h2 hw)]
    | some w => simp [hw]

/-- C8 counterexample: the claim "no lock is ever held across a blocking
network call" is false at a concrete input.  In the iteration of
`Server.__trainer_thread` where a batch is ready, nothing is outstanding and
the send succeeds, `select_and_send_or_close_socket` (select wait + sendall,
line 325) runs with the buffer lock held (acquired at 321, released at 342);
the same happens in `RolloutWorker.__run_thread` (send at 828, lock from 823
to 844). -/
theorem claim_C8_lock_across_send_counterexample :
    networkUnderLock (annotate false false
      (serverTrainerIterOps true false true false PollEvent.pollIdle)) = true ∧
    ((annotate false false
      (serverTrainerIterOps true false true false PollEvent.pollIdle)).any
        fun t => (t.1 == LoopOp.selectSend) && t.2.1) = true ∧
    networkUnderLock (annotate false false
      (rolloutWorkerIterOps true false true false PollEvent.pollIdle)) = true ∧
    ((annotate false false
      (rolloutWorkerIterOps true false true false PollEvent.pollIdle)).any
        fun t => (t.1 == LoopOp.selectSend) && t.2.1) = true := by
  decide

/-- C8 amended: every in-memory mutation of the shared buffer or weights slot
runs under its dedicated exclusive lock, and no lock is held across the
receive poll; however, in both sender loops the buffer lock IS held across
the blocking select-and-send call (this holds in every branch of both
iterations). -/
theorem claim_C8_lock_discipline_amended :
    ∀ (dataReady waitAck sendOk ackTimedOut : Bool) (poll : PollEvent),
      mutationsLocked (annotate false false
        (serverTrainerIterOps dataReady waitAck sendOk ackTimedOut poll)) = true ∧
      pollLockFree (annotate false false
        (serverTrainerIterOps dataReady waitAck sendOk ackTimedOut poll)) = true ∧
      sendsUnderBufLock (annotate false false
        (serverTrainerIterOps dataReady waitAck sendOk ackTimedOut poll)) = true ∧
      mutationsLocked (annotate false false
        (rolloutWorkerIterOps dataReady waitAck sendOk ackTimedOut poll)) = true ∧
      pollLockFree (annotate false false
        (rolloutWorkerIterOps dataReady waitAck sendOk ackTimedOut poll)) = true ∧
      sendsUnderBufLock (annotate false false
        (rolloutWorkerIterOps dataReady waitAck sendOk ackTimedOut poll)) = true := by
  intro dataReady waitAck sendOk ackTimedOut poll
  cases dataReady <;> cases waitAck <;> cases sendOk <;> cases ackTimedOut <;>
    cases poll <;> decide

/-- C6 is a code bug; this theorem evaluates the code at the failing input: on
a well-framed payload whose deserialization fails, `recv_object` lets the
exception escape (`pickle.loads` on line 114 is outside every try block,
modelled `.exn`), and `poll_and_recv_or_close_socket` propagates it (`none`)
instead of reporting connection loss `(False, None)` as the spec requires. -/
theorem claim_C6_deserialization_failure_uncaught :
    recv_object (fun _ => (none : Option ℕ)) 12 (send_object 12 [9, 9, 9]) =
      (.exn, []) ∧
    poll_and_recv (fun _ => (none : Option ℕ)) 12 true (send_object 12 [9, 9, 9]) =
      none ∧
    poll_and_recv (fun _ => (none : Option ℕ)) 12 true (send_object 12 [9, 9, 9]) ≠
      some (false, none) := by
  decide

end TMRL
